import Mathlib

/-!
Shallow embedding of `src/server/core/ice-service.js` (the `Service` base
class of the blog backend): action publishing, model resolution, population,
ownership checks and result shaping.  JS values that the code inspects are
modelled explicitly: absent/`undefined`/`null` string fields are `Option
String` with JS truthiness (`""` and `none` are falsy), document field values
are a small JS-value type `FieldVal`, and thrown errors are an `Except`
error channel.
-/

namespace IceService

/-- JS truthiness of an optional string: `undefined`/`null` and `""` are falsy. -/
def truthyS : Option String → Bool
  | none => false
  | some s => !(s == "")

/-- JS `x || y` on optional strings: keeps `x` when truthy, else `y`. -/
def jsOr (x y : Option String) : Option String :=
  if truthyS x then x else y

/-- JS string interpolation of a possibly-absent value (`undefined` prints as "undefined"). -/
def jsShow (o : Option String) : String :=
  o.getD "undefined"

/-- JS `String.prototype.toLowerCase` (per character; method verbs are ASCII). -/
def jsToLowerCase (s : String) : String :=
  String.mk (s.data.map Char.toLower)

/-- Character-list worker for `jsSplitSpace`. -/
def splitSpaceAux : List Char → List Char → List String
  | [], acc => [String.mk acc.reverse]
  | c :: cs, acc =>
      if c == ' ' then String.mk acc.reverse :: splitSpaceAux cs []
      else splitSpaceAux cs (c :: acc)

/-- JS `String.prototype.split(" ")`: split on each single space (the empty
string splits to `[""]`, like in JS). -/
def jsSplitSpace (s : String) : List String :=
  splitSpaceAux s.data []

/- Constants module (`core/constants`), not under `src/`.
Modelled from the spec: the administrator role bypasses ownership checks and
`ROLE_USER` is the default action role; concrete string values are arbitrary
but fixed. -/
namespace C

def ROLE_USER : String := "user"

def ROLE_ADMIN : String := "admin"

end C

/-- Error status constants of the errors module (`core/errors`), not under `src/`.
Modelled from the spec: `InvalidIdentifier` and ownership failures are client
errors with distinct statuses. -/
inductive ErrStatus where
  | BAD_REQUEST
  | FORBIDDEN
deriving Repr, DecidableEq

/-- Error code constants of the constants module, not under `src/`.
Modelled from the spec: error taxonomy codes used by the service base class. -/
inductive ErrCode where
  | INVALID_CODE
  | MODEL_NOT_FOUND
  | ERR_ONLY_OWNER_CAN_EDIT_AND_DELETE
deriving Repr, DecidableEq

/-- A thrown JS error: either an application `RequestError(status, code, msgCode)`
or a runtime `TypeError` (e.g. calling `.map` on a non-array). -/
inductive JsError where
  | requestError (status : ErrStatus) (code : ErrCode) (msgCode : String)
  | typeError (msg : String)
deriving Repr, DecidableEq

/-- One REST route descriptor as pushed into `schema.rest.routes`. -/
structure RouteDescriptor where
  method : String
  path : String
  action : String
  permission : Option String
  role : Option String
deriving Repr, DecidableEq

/-- One websocket route descriptor as pushed into `schema.ws.routes`. -/
structure WsRoute where
  path : String
  action : String
  permission : Option String
  role : Option String
deriving Repr, DecidableEq

/-- The `graphql` block of a service schema (query/type/mutation strings and
the resolver bindings, binding name → action name).  `publishActions` passes
this block through unchanged. -/
structure GraphQLSchema where
  query : String
  types : String
  mutation : String
  resolvers : List (String × String)
deriving Repr, DecidableEq

/-- An action descriptor from `schema.actions` (the object form; a bare
handler function corresponds to the descriptor with every field absent). -/
structure ActionDescriptor where
  name : Option String := none
  permission : Option String := none
  role : Option String := none
  publish : Option Bool := none
  defaultMethod : Option String := none
  needModel : Bool := false
deriving Repr, DecidableEq

/-- The service `settings` fields read by the embedded methods.  The source's
`namespace` key is spelled `nspace` (Lean keyword). -/
structure Settings where
  nspace : Option String := none
  latestVersion : Option String := none
  hashedIdentity : Bool := false
  rest : Bool := false
  ws : Bool := false
  graphql : Bool := false
  permission : Option String := none
  role : Option String := none
  modelPropFilter : Option String := none
  modelPopulates : Option (List (String × String)) := none
deriving Repr, DecidableEq

/-- Lines 60-62 of `publishActions`: fill absent `name`, `permission`, `role`
with defaults, in place (`action.name = action.name || actionName; ...`). -/
def normalizeAction (settings : Settings) (actionName : String) (a : ActionDescriptor) :
    ActionDescriptor :=
  { a with
    name := jsOr a.name (some actionName)
    permission := jsOr a.permission settings.permission
    role := jsOr a.role (jsOr settings.role (some C.ROLE_USER)) }

/-- The in-place update one publish cycle applies to an action entry:
unpublished entries are left untouched, published ones are normalized. -/
def updEntry (settings : Settings) (e : String × ActionDescriptor) :
    String × ActionDescriptor :=
  if e.2.publish == some false then e else (e.1, normalizeAction settings e.1 e.2)

/-- The `addRoute` closure (lines 69-77): `routes[insert ? "unshift" : "push"](...)`. -/
def addRoute (routes : List RouteDescriptor) (method path actionCallName : String)
    (permission role : Option String) (insert : Bool) : List RouteDescriptor :=
  let r : RouteDescriptor :=
    { method := method, path := path, action := actionCallName,
      permission := permission, role := role }
  if insert then r :: routes else routes ++ [r]

/-- Lines 84-102: the four generic routes (unshifted) and the optional
`defaultMethod` shortcut route (pushed) for one normalized action. -/
def restRoutesForAction (ns idParamName actionCallName : String) (a : ActionDescriptor)
    (routes : List RouteDescriptor) : List RouteDescriptor :=
  let name := jsShow a.name
  let r1 := addRoute routes "get" ("/" ++ ns ++ "/" ++ name) actionCallName
      a.permission a.role true
  let r2 := addRoute r1 "post" ("/" ++ ns ++ "/" ++ name) actionCallName
      a.permission a.role true
  let r3 := addRoute r2 "get" ("/" ++ ns ++ "/:" ++ idParamName ++ "/" ++ name)
      actionCallName a.permission a.role true
  let r4 := addRoute r3 "post" ("/" ++ ns ++ "/:" ++ idParamName ++ "/" ++ name)
      actionCallName a.permission a.role true
  if truthyS a.defaultMethod then
    let m := jsToLowerCase (jsShow a.defaultMethod)
    if a.needModel then
      addRoute r4 m ("/" ++ ns ++ "/:" ++ idParamName) actionCallName
        a.permission a.role false
    else
      addRoute r4 m ("/" ++ ns) actionCallName a.permission a.role false
  else r4

/-- Mutable state threaded through the `_.forIn` loop of `publishActions`:
the accumulated REST routes, ws routes, and the (in-place updated) action map. -/
structure PubState where
  restRoutes : List RouteDescriptor
  wsRoutes : List WsRoute
  actions : List (String × ActionDescriptor)
deriving Repr, DecidableEq

/-- One iteration of the `_.forIn(this.schema.actions, ...)` loop
(lines 51-113): skip unpublished actions, normalize the descriptor in place,
add REST routes (if `settings.rest`) and the ws route (if `settings.ws`). -/
def processAction (settings : Settings) (serviceName ns idParamName : String)
    (st : PubState) (entry : String × ActionDescriptor) : PubState :=
  let a0 := entry.2
  if a0.publish == some false then
    { st with actions := st.actions ++ [entry] }
  else
    let a := normalizeAction settings entry.1 a0
    let actionCallName := serviceName ++ "." ++ jsShow a.name
    let rest' :=
      if settings.rest then
        restRoutesForAction ns idParamName actionCallName a st.restRoutes
      else st.restRoutes
    let ws' :=
      if settings.ws then
        st.wsRoutes ++ [{ path := "/" ++ ns ++ "/" ++ jsShow a.name,
                          action := actionCallName,
                          permission := a.permission, role := a.role }]
      else st.wsRoutes
    { restRoutes := rest', wsRoutes := ws', actions := st.actions ++ [(entry.1, a)] }

/-- The whole `_.forIn` loop, folded left over the action entries. -/
def processActions (settings : Settings) (serviceName ns idParamName : String)
    (st : PubState) : List (String × ActionDescriptor) → PubState
  | [] => st
  | e :: es =>
      processActions settings serviceName ns idParamName
        (processAction settings serviceName ns idParamName st e) es

/-- The schema object assembled and handed to `www.publish` (lines 29-123). -/
structure PublishedSchema where
  nspace : String
  version : Option String
  latestVersion : Option String
  hashedIdentity : Bool
  idParamName : String
  rest : Option (List RouteDescriptor)
  ws : Option (List WsRoute)
  graphql : Option GraphQLSchema
deriving Repr, DecidableEq

/-- `publishActions` (lines 26-124) on a present action map: returns the
published schema together with the action map after its in-place
normalization (the loop mutates each published descriptor). -/
def publishActions (settings : Settings) (serviceName : String) (version : Option String)
    (actions : List (String × ActionDescriptor)) (graphql : Option GraphQLSchema) :
    PublishedSchema × List (String × ActionDescriptor) :=
  let ns := (jsOr settings.nspace (some serviceName)).getD serviceName
  let idParamName := if settings.hashedIdentity then "code" else "id"
  let st := processActions settings serviceName ns idParamName
      { restRoutes := [], wsRoutes := [], actions := [] } actions
  ({ nspace := ns
     version := version
     latestVersion := settings.latestVersion
     hashedIdentity := settings.hashedIdentity
     idParamName := idParamName
     rest := if settings.rest then some st.restRoutes else none
     ws := if settings.ws then some st.wsRoutes else none
     graphql := if settings.graphql then graphql else none },
   st.actions)

/-- The `if (!this.schema.actions) return;` guard of line 27: with no action
map the method publishes nothing and returns `undefined`. -/
def publishActionsSvc (settings : Settings) (serviceName : String) (version : Option String)
    (actions : Option (List (String × ActionDescriptor))) (graphql : Option GraphQLSchema) :
    Option (PublishedSchema × List (String × ActionDescriptor)) :=
  match actions with
  | none => none
  | some as => some (publishActions settings serviceName version as graphql)

/-- The four generic routes of one published action, in the order they end up
occupying in the route list (four `unshift`s leave them reversed). -/
def genericBlock (settings : Settings) (serviceName ns idParamName : String)
    (entry : String × ActionDescriptor) : List RouteDescriptor :=
  let a := normalizeAction settings entry.1 entry.2
  let cn := serviceName ++ "." ++ jsShow a.name
  let name := jsShow a.name
  [ { method := "post", path := "/" ++ ns ++ "/:" ++ idParamName ++ "/" ++ name,
      action := cn, permission := a.permission, role := a.role },
    { method := "get", path := "/" ++ ns ++ "/:" ++ idParamName ++ "/" ++ name,
      action := cn, permission := a.permission, role := a.role },
    { method := "post", path := "/" ++ ns ++ "/" ++ name,
      action := cn, permission := a.permission, role := a.role },
    { method := "get", path := "/" ++ ns ++ "/" ++ name,
      action := cn, permission := a.permission, role := a.role } ]

/-- The (possibly empty) shortcut-route block of one published action. -/
def shortcutBlock (settings : Settings) (serviceName ns idParamName : String)
    (entry : String × ActionDescriptor) : List RouteDescriptor :=
  let a := normalizeAction settings entry.1 entry.2
  let cn := serviceName ++ "." ++ jsShow a.name
  if truthyS a.defaultMethod then
    let m := jsToLowerCase (jsShow a.defaultMethod)
    if a.needModel then
      [ { method := m, path := "/" ++ ns ++ "/:" ++ idParamName,
          action := cn, permission := a.permission, role := a.role } ]
    else
      [ { method := m, path := "/" ++ ns,
          action := cn, permission := a.permission, role := a.role } ]
  else []

/-- All generic routes of the published actions, later actions first (each
action's block is unshifted in front of the previously accumulated routes). -/
def restGenerics (settings : Settings) (serviceName ns idParamName : String) :
    List (String × ActionDescriptor) → List RouteDescriptor
  | [] => []
  | e :: es =>
      if e.2.publish == some false then
        restGenerics settings serviceName ns idParamName es
      else
        restGenerics settings serviceName ns idParamName es ++
          genericBlock settings serviceName ns idParamName e

/-- All shortcut routes of the published actions, in action order (each is
pushed at the back of the route list). -/
def restShortcuts (settings : Settings) (serviceName ns idParamName : String) :
    List (String × ActionDescriptor) → List RouteDescriptor
  | [] => []
  | e :: es =>
      (if e.2.publish == some false then []
       else shortcutBlock settings serviceName ns idParamName e) ++
        restShortcuts settings serviceName ns idParamName es

/-- Index of the first occurrence of a route in a route list. -/
def routeIndex (rs : List RouteDescriptor) (r : RouteDescriptor) : Nat :=
  rs.findIdx (fun x => x == r)

/-- An entity returned by a population sub-invocation; treated opaquely by
`populateModels` (it only stores it back into the referencing field). -/
structure Entity where
  data : List (String × String)
deriving Repr, DecidableEq

/-- A JS value as held by a document field: `null`/`undefined`, a single
identifier, an array of values, or (after population) an entity / array of
entities. -/
inductive FieldVal where
  | null : FieldVal
  | id : String → FieldVal
  | ids : List FieldVal → FieldVal
  | ent : Entity → FieldVal
  | ents : List Entity → FieldVal
deriving Repr

mutual

/-- Structural equality test on field values (JS `SameValueZero`, as used by
`_.uniq`). -/
def FieldVal.beq : FieldVal → FieldVal → Bool
  | .null, .null => true
  | .id a, .id b => a == b
  | .ids a, .ids b => FieldVal.beqList a b
  | .ent a, .ent b => a == b
  | .ents a, .ents b => a == b
  | _, _ => false

/-- Elementwise `FieldVal.beq` on lists. -/
def FieldVal.beqList : List FieldVal → List FieldVal → Bool
  | [], [] => true
  | x :: xs, y :: ys => FieldVal.beq x y && FieldVal.beqList xs ys
  | _, _ => false

end

instance : BEq FieldVal := ⟨FieldVal.beq⟩

/-- A document in its plain-JSON form: an ordered key/value map. -/
abbrev Doc := List (String × FieldVal)

/-- JS property read `doc[field]`: first binding of the key, `undefined`
(here `.null`) when absent. -/
def getField (d : Doc) (field : String) : FieldVal :=
  match d.find? (fun kv => kv.1 == field) with
  | some kv => kv.2
  | none => .null

/-- JS property read that distinguishes an absent key (used by `_.pick`). -/
def getFieldOpt (d : Doc) (field : String) : Option FieldVal :=
  (d.find? (fun kv => kv.1 == field)).map (fun kv => kv.2)

/-- JS property assignment `obj[k] = v`: overwrite the existing binding in
place, else append a new one. -/
def jsSet {α : Type} : List (String × α) → String → α → List (String × α)
  | [], k, v => [(k, v)]
  | (k', w) :: rest, k, v =>
      if k' == k then (k', v) :: rest else (k', w) :: jsSet rest k v

/-- JS field assignment on a document. -/
def setField (d : Doc) (field : String) (v : FieldVal) : Doc :=
  jsSet d field v

/-- Lookup of a key in a JS object modelled as an association list. -/
def lookupAssoc {α : Type} (m : List (String × α)) (k : String) : Option α :=
  (m.find? (fun kv => kv.1 == k)).map (fun kv => kv.2)

/-- JS falsiness of a field value (`_.compact` drops falsy elements; note an
empty array is truthy in JS). -/
def jsFalsy : FieldVal → Bool
  | .null => true
  | .id s => s == ""
  | _ => false

/-- `_.compact`: drop falsy elements. -/
def compactFV (xs : List FieldVal) : List FieldVal :=
  xs.filter (fun v => !jsFalsy v)

mutual

/-- `_.flattenDeep` on one element: arrays are flattened recursively,
non-arrays are kept (an array of entities is an array too). -/
def flattenDeepV : FieldVal → List FieldVal
  | .ids xs => flattenDeepList xs
  | .ents es => es.map FieldVal.ent
  | v => [v]

/-- `_.flattenDeep` on a list. -/
def flattenDeepList : List FieldVal → List FieldVal
  | [] => []
  | x :: xs => flattenDeepV x ++ flattenDeepList xs

end

/-- `_.uniq`: keep the first occurrence of each value. -/
def uniqAux (seen : List FieldVal) : List FieldVal → List FieldVal
  | [] => []
  | x :: xs =>
      if seen.contains x then uniqAux seen xs
      else x :: uniqAux (x :: seen) xs

/-- `_.uniq`. -/
def uniqFV (xs : List FieldVal) : List FieldVal :=
  uniqAux [] xs

mutual

/-- JS string coercion of a value used as a property key (`obj[v]`):
`undefined`/`null` coerce to their names, arrays to their comma-joined
elements (with `null` elements joining as the empty string), objects to
"[object Object]". -/
def jsKey : FieldVal → String
  | .null => "undefined"
  | .id s => s
  | .ids xs => jsKeyList xs
  | .ent _ => "[object Object]"
  | .ents es => String.intercalate "," (es.map (fun _ => "[object Object]"))

/-- Comma-join of array elements under JS string coercion. -/
def jsKeyList : List FieldVal → String
  | [] => ""
  | x :: xs =>
      (match x with | .null => "" | v => jsKey v) ++
        (if xs.isEmpty then "" else "," ++ jsKeyList xs)

end

/-- Lookup `populatedDocs[_id]` in the object returned by a sub-invocation
(keys are strings; the index value is coerced with `jsKey`). -/
def lookupEnt (populatedDocs : List (String × Entity)) (v : FieldVal) : Option Entity :=
  (populatedDocs.find? (fun kv => kv.1 == jsKey v)).map (fun kv => kv.2)

/-- The parameters of a population sub-invocation
(`{ id: idList, resultAsObject: true, propFilter: true }`, line 244). -/
structure CallParams where
  id : List FieldVal
  resultAsObject : Bool
  propFilter : Bool
deriving Repr

/-- `docs` as received by `populateModels`: a single document or an array. -/
inductive DocsVal where
  | one : Doc → DocsVal
  | many : List Doc → DocsVal
deriving Repr

/-- Line 237: `items = _.isArray(docs) ? docs : [docs]`. -/
def toItems : DocsVal → List Doc
  | .one d => [d]
  | .many ds => ds

/-- Line 240: `_.uniq(_.flattenDeep(_.compact(items.map(doc => doc[field]))))`. -/
def collectIdList (items : List Doc) (field : String) : List FieldVal :=
  uniqFV (flattenDeepList (compactFV (items.map (fun d => getField d field))))

/-- Modelled from the spec's words, for comparison with `collectIdList`
(claim C5 reads the collected identifier set as "flattened, nulls removed,
deduplicated across all input entities"): flatten the raw field values,
drop the nulls, then deduplicate. -/
def specCollectIdList (items : List Doc) (field : String) : List FieldVal :=
  uniqFV ((flattenDeepList (items.map (fun d => getField d field))).filter
    (fun v => !(v == FieldVal.null)))

/-- Lines 246-254: replace one field of one document from the sub-invocation
result: an array field element-wise (dropping unmatched identifiers), a
scalar field with the single match or `undefined`. -/
def populateField (populatedDocs : List (String × Entity)) (field : String) (d : Doc) : Doc :=
  let idv := getField d field
  match idv with
  | .ids xs =>
      setField d field
        (.ents ((xs.map (fun x => lookupEnt populatedDocs x)).filterMap (fun o => o)))
  | .ents es =>
      setField d field
        (.ents ((es.map (fun e => lookupEnt populatedDocs (.ent e))).filterMap (fun o => o)))
  | v =>
      match lookupEnt populatedDocs v with
      | some e => setField d field (.ent e)
      | none => setField d field .null

/-- The body of `populateModels` on the item list: collect the id list of
every schema field over the (pre-population) items, issue one sub-invocation
per field with a non-empty list, and apply each field's replacement.  Also
returns the issued sub-invocations (action name and parameters). -/
def populateItems (items : List Doc) (populateSchema : List (String × String))
    (call : String → CallParams → List (String × Entity)) :
    List Doc × List (String × CallParams) :=
  let fieldCalls := populateSchema.filterMap (fun fa =>
    let idList := collectIdList items fa.1
    if idList.length > 0 then
      some (fa.1, fa.2, (⟨idList, true, true⟩ : CallParams))
    else none)
  let items' := fieldCalls.foldl
    (fun its (fc : String × String × CallParams) =>
      its.map (populateField (call fc.2.1 fc.2.2) fc.1)) items
  (items', fieldCalls.map (fun fc => (fc.2.1, fc.2.2)))

/-- `populateModels` (lines 231-269) on present docs and schema, preserving
the single-vs-array shape of `docs`. -/
def populateModels (docs : DocsVal) (populateSchema : List (String × String))
    (call : String → CallParams → List (String × Entity)) :
    DocsVal × List (String × CallParams) :=
  let r := populateItems (toItems docs) populateSchema call
  (match docs with
   | .one d => .one (r.1.headD d)
   | .many _ => .many r.1,
   r.2)

/-- The `docs != null && populateSchema` guard of line 233 (with the
`populateSchema || settings.modelPopulates` default applied by the caller):
with no docs or no schema the call is a no-op issuing no sub-invocation. -/
def populateModelsJS (docs : Option DocsVal) (populateSchema : Option (List (String × String)))
    (call : String → CallParams → List (String × Entity)) :
    Option DocsVal × List (String × CallParams) :=
  match docs, populateSchema with
  | some dv, some sch =>
      let r := populateModels dv sch call
      (some r.1, r.2)
  | d, _ => (d, [])

/-- The caller identity (`ctx.user` / the spec's caller): `id` and `roles`. -/
structure JsUser where
  id : String
  roles : List String
deriving Repr, DecidableEq

/-- JS loose equality `model[fieldName] == user.id` between a field value and
a string: `null`/`undefined` are not loosely equal to any string; other
values compare by string coercion. -/
def looseEqUserId (v : FieldVal) (uid : String) : Bool :=
  match v with
  | .null => false
  | v => jsKey v == uid

/-- `checkModelOwner` (lines 153-158): pass when the owner field loosely
equals the caller's id or the caller holds the administrator role, else
throw `FORBIDDEN`. -/
def checkModelOwner (model : Doc) (fieldName : String) (user : JsUser) :
    Except JsError Doc :=
  if looseEqUserId (getField model fieldName) user.id || user.roles.contains C.ROLE_ADMIN then
    .ok model
  else
    .error (.requestError .FORBIDDEN .ERR_ONLY_OWNER_CAN_EDIT_AND_DELETE
      "app:YouAreNotTheOwner")

/-- `checkModel` (lines 135-140): throw `MODEL_NOT_FOUND` on a missing model. -/
def checkModel (model : Option Doc) (errMessageCode : String) : Except JsError Doc :=
  match model with
  | some m => .ok m
  | none => .error (.requestError .BAD_REQUEST .MODEL_NOT_FOUND errMessageCode)

/-- `_.pick(doc, fields)`: keep the named fields that exist, in the order of
the field list. -/
def pickDoc (d : Doc) (fields : List String) : Doc :=
  fields.filterMap (fun f => (getFieldOpt d f).map (fun v => (f, v)))

/-- `toJSON` (lines 170-192) applied to a single document: default the filter
to `settings.modelPropFilter`, split a string filter on spaces, and pick the
named properties (no filter: the document passes through). -/
def toJSONDoc (settings : Settings) (d : Doc) (propFilter : Option String) : Doc :=
  let pf := match propFilter with
    | none => settings.modelPropFilter
    | some s => some s
  match pf with
  | none => d
  | some s => pickDoc d (jsSplitSpace s)

/-- The `propFilter` context parameter of `resolveModel`: a boolean or a
filter string. -/
inductive PropFilterParam where
  | pfBool : Bool → PropFilterParam
  | pfStr : String → PropFilterParam
deriving Repr, DecidableEq

/-- The context parameters read by `resolveID`/`resolveModel`. -/
structure RMParams where
  id : FieldVal := .null
  code : FieldVal := .null
  resultAsObject : Bool := false
  populate : Bool := false
  propFilter : Option PropFilterParam := none
deriving Repr

/-- The `filterProperties` closure of `resolveModel` (lines 308-316): with a
`propFilter` parameter present run `toJSON`, passing the filter through only
when it is a string. -/
def filterProperties (settings : Settings) (params : RMParams) (d : Doc) : Doc :=
  match params.propFilter with
  | none => d
  | some (.pfStr s) => toJSONDoc settings d (some s)
  | some (.pfBool _) => toJSONDoc settings d none

/-- `resolveID` (lines 278-291): start from `params.id`; when a truthy `code`
is present on a hashed-identity service and a `decodeID` method exists,
decode the code (element-wise for arrays); with no decode function the `id`
parameter is returned unchanged. -/
def resolveID (settings : Settings) (decodeID : Option (FieldVal → FieldVal))
    (params : RMParams) : FieldVal :=
  let id := params.id
  let code := params.code
  if !jsFalsy code && settings.hashedIdentity then
    match decodeID with
    | some dec =>
        match code with
        | .ids xs => .ids (xs.map dec)
        | .ents es => .ids (es.map (fun e => dec (.ent e)))
        | c => dec c
    | none => id
  else id

/-- Line 323: `id == null || id.length == 0` (a number has no `length`, so
only strings and arrays can have length zero). -/
def invalidResolvedId : FieldVal → Bool
  | .null => true
  | .id s => s.length == 0
  | .ids xs => xs.length == 0
  | .ent _ => false
  | .ents es => es.length == 0

/-- `_.isArray`. -/
def isArrFV : FieldVal → Bool
  | .ids _ => true
  | .ents _ => true
  | _ => false

/-- A store document before its `toJSON()` conversion. -/
structure MongoDoc where
  json : Doc
deriving Repr

/-- The backing collection interface consumed by `resolveModel`:
`find({_id: {$in: id}})` for an array id and `findById(id)` otherwise. -/
structure Collection where
  find : FieldVal → List MongoDoc
  findById : FieldVal → Option MongoDoc

/-- The value flowing between the `.then` stages of `resolveModel`: an array
of documents, a single document, or `undefined` (a missed point lookup). -/
inductive DocsStage where
  | arr : List Doc → DocsStage
  | single : Doc → DocsStage
  | undefined : DocsStage
deriving Repr

/-- The shaped result of `resolveModel`. -/
inductive ShapedResult where
  | arr : List Doc → ShapedResult
  | single : Doc → ShapedResult
  | obj : List (String × Doc) → ShapedResult
  | undefined : ShapedResult
deriving Repr

/-- The object key contributed by one document: `doc.id` coerced to a
property key. -/
def docIdKey (d : Doc) : String :=
  jsKey (getField d "id")

/-- Line 356: `docs.forEach(doc => docsObj[doc.id] = filterProperties(doc))`. -/
def buildDocsObj (settings : Settings) (params : RMParams) (ds : List Doc) :
    List (String × Doc) :=
  ds.foldl
    (fun m d => jsSet m (docIdKey d) (filterProperties settings params d)) []

/-- The final `.then` of `resolveModel` (lines 353-364): an array with
`resultAsObject === true` becomes an id-keyed object; otherwise a present
`propFilter` maps `filterProperties` over `docs` — a `TypeError` when `docs`
is not an array. -/
def shapeResult (settings : Settings) (params : RMParams) (docs : DocsStage) :
    Except JsError ShapedResult :=
  match docs with
  | .arr ds =>
      if params.resultAsObject then .ok (.obj (buildDocsObj settings params ds))
      else if params.propFilter.isSome then
        .ok (.arr (ds.map (filterProperties settings params)))
      else .ok (.arr ds)
  | .single d =>
      if params.propFilter.isSome then .error (.typeError "docs.map is not a function")
      else .ok (.single d)
  | .undefined =>
      if params.propFilter.isSome then .error (.typeError "docs.map is not a function")
      else .ok .undefined

/-- The populate stage of `resolveModel` (lines 344-349): `populateModels`
with the service's default schema, preserving the docs shape (`undefined`
docs short-circuit inside `populateModels`). -/
def populateStage (settings : Settings)
    (call : String → CallParams → List (String × Entity)) (docs : DocsStage) : DocsStage :=
  match settings.modelPopulates with
  | none => docs
  | some sch =>
      match docs with
      | .arr ds => .arr (populateItems ds sch call).1
      | .single d => .single ((populateItems [d] sch call).1.headD d)
      | .undefined => .undefined

/-- The query and JSON-conversion stages of `resolveModel` (lines 326-341):
a set lookup for an array identifier, a point lookup otherwise, each
converted to plain JSON (`undefined` when the point lookup misses). -/
def queryStage (collection : Collection) (id : FieldVal) : DocsStage :=
  if isArrFV id then .arr ((collection.find id).map MongoDoc.json)
  else
    match collection.findById id with
    | some m => .single m.json
    | none => .undefined

/-- `resolveModel` (lines 307-366): resolve the identifier, fail with
`INVALID_CODE` when it is absent/empty, query the collection (point or set
lookup), convert to plain JSON, optionally populate, and shape the result. -/
def resolveModel (settings : Settings) (decodeID : Option (FieldVal → FieldVal))
    (collection : Collection)
    (call : String → CallParams → List (String × Entity))
    (params : RMParams) : Except JsError ShapedResult :=
  let id := resolveID settings decodeID params
  if invalidResolvedId id then
    .error (.requestError .BAD_REQUEST .INVALID_CODE "app:InvalidCode")
  else
    let docs1 := queryStage collection id
    let docs2 := if params.populate then populateStage settings call docs1 else docs1
    shapeResult settings params docs2

/-! Helper lemmas. -/

theorem jsOr_absorb (x y : Option String) : jsOr (jsOr x y) y = jsOr x y := by
  unfold jsOr
  by_cases h : truthyS x = true
  · simp [h]
  · simp [h]

theorem normalizeAction_publish (s : Settings) (an : String) (a : ActionDescriptor) :
    (normalizeAction s an a).publish = a.publish := rfl

theorem normalizeAction_idem (s : Settings) (an : String) (a : ActionDescriptor) :
    normalizeAction s an (normalizeAction s an a) = normalizeAction s an a := by
  cases a
  simp [normalizeAction, jsOr_absorb]

theorem normalizeAction_of_truthy (s : Settings) (an : String) (a : ActionDescriptor)
    (hn : truthyS a.name = true) (hp : truthyS a.permission = true)
    (hr : truthyS a.role = true) : normalizeAction s an a = a := by
  cases a
  simp_all [normalizeAction, jsOr]

theorem updEntry_skip (s : Settings) (e : String × ActionDescriptor)
    (h : (e.2.publish == some false) = true) : updEntry s e = e := by
  simp [updEntry, h]

theorem processAction_updEntry (settings : Settings) (sn ns idp : String) (st : PubState)
    (e : String × ActionDescriptor) :
    processAction settings sn ns idp st (updEntry settings e) =
      processAction settings sn ns idp st e := by
  unfold updEntry processAction
  by_cases h : (e.2.publish == some false) = true
  · simp [h]
  · simp [h, normalizeAction_publish, normalizeAction_idem]

theorem processActions_actions (settings : Settings) (sn ns idp : String)
    (es : List (String × ActionDescriptor)) : ∀ st : PubState,
    (processActions settings sn ns idp st es).actions =
      st.actions ++ es.map (updEntry settings) := by
  induction es with
  | nil => intro st; simp [processActions]
  | cons e es ih =>
      intro st
      by_cases h : (e.2.publish == some false) = true
      · simp [processActions, processAction, updEntry, h, ih]
      · simp [processActions, processAction, updEntry, h, ih]

theorem processActions_updEntry (settings : Settings) (sn ns idp : String)
    (es : List (String × ActionDescriptor)) : ∀ st : PubState,
    processActions settings sn ns idp st (es.map (updEntry settings)) =
      processActions settings sn ns idp st es := by
  induction es with
  | nil => intro st; rfl
  | cons e es ih =>
      intro st
      simp [processActions, processAction_updEntry, ih]

theorem publishActions_snd (settings : Settings) (sn : String) (v : Option String)
    (actions : List (String × ActionDescriptor)) (g : Option GraphQLSchema) :
    (publishActions settings sn v actions g).2 = actions.map (updEntry settings) := by
  simp [publishActions, processActions_actions]

/-! Claim theorems. -/

/-- C9: publishing is deterministic and idempotent — publishing the action
set a second time (after the first publish has normalized the descriptors in
place) produces the identical published schema, the same routes in the same
order, and leaves the descriptors fixed. -/
theorem C9_publish_idempotent :
    ∀ (settings : Settings) (serviceName : String) (version : Option String)
      (actions : List (String × ActionDescriptor)) (graphql : Option GraphQLSchema),
      publishActions settings serviceName version
          ((publishActions settings serviceName version actions graphql).2) graphql =
        publishActions settings serviceName version actions graphql := by
  intro s sn v as g
  rw [publishActions_snd]
  simp [publishActions, processActions_updEntry]

/-- C8 counterexample: publishing a registered descriptor whose `name` field
is absent mutates it — the descriptor stored after `publishActions` has
`name`, `role` filled in, so the name/permission/role fields are not left
unchanged. -/
theorem C8_counterexample :
    (publishActions {} "svc" none [("act", {})] none).2 =
      [("act", { name := some "act", permission := none, role := some C.ROLE_USER,
                 publish := none, defaultMethod := none, needModel := false })]
    ∧ ({} : ActionDescriptor).name = none
    ∧ (publishActions {} "svc" none [("act", {})] none).2 ≠ [("act", {})] := by
  refine ⟨rfl, rfl, ?_⟩
  decide

/-- C8 amended: descriptors are not immutable under publishing in general —
the publish loop fills absent `name`/`permission`/`role` fields in place —
but a descriptor whose `name`, `permission` and `role` are already set
(truthy) is left completely unchanged by `publishActions`. -/
theorem C8_publish_preserves_populated_descriptors :
    ∀ (settings : Settings) (serviceName : String) (version : Option String)
      (actions : List (String × ActionDescriptor)) (graphql : Option GraphQLSchema),
      (∀ e ∈ actions, truthyS e.2.name = true ∧ truthyS e.2.permission = true ∧
          truthyS e.2.role = true) →
      (publishActions settings serviceName version actions graphql).2 = actions := by
  intro s sn v as g h
  rw [publishActions_snd]
  have hupd : ∀ e ∈ as, updEntry s e = e := by
    intro e he
    obtain ⟨hn, hp, hr⟩ := h e he
    unfold updEntry
    by_cases hb : (e.2.publish == some false) = true
    · simp [hb]
    · simp [hb, normalizeAction_of_truthy s e.1 e.2 hn hp hr]
  induction as with
  | nil => rfl
  | cons e es ih =>
      simp only [List.map_cons]
      rw [hupd e (by simp), ih (fun x hx => h x (by simp [hx])) (fun x hx => hupd x (by simp [hx]))]

/-- C8 witness: a fully populated descriptor survives a publish cycle
unchanged. -/
theorem C8_witness :
    (publishActions {} "svc" none
        [("act", { name := some "a", permission := some "p", role := some "r" })] none).2 =
      [("act", { name := some "a", permission := some "p", role := some "r" })] :=
  C8_publish_preserves_populated_descriptors {} "svc" none
    [("act", { name := some "a", permission := some "p", role := some "r" })] none
    (by decide)

/-- C7: `checkModelOwner` returns the model exactly when the owner field of
the entity (loosely) equals the caller's identifier or the caller's role set
contains the administrator role, and fails with `FORBIDDEN` otherwise; in
particular an administrator passes regardless of the owner field, and the
caller `u2` with roles `["user"]` on an entity owned by `u1` is rejected. -/
theorem C7_checkModelOwner :
    (∀ (model : Doc) (f : String) (user : JsUser),
        user.roles.contains C.ROLE_ADMIN = true →
        checkModelOwner model f user = .ok model)
    ∧ (∀ (model : Doc) (f : String) (user : JsUser),
        looseEqUserId (getField model f) user.id = true →
        checkModelOwner model f user = .ok model)
    ∧ (∀ (model : Doc) (f : String) (user : JsUser),
        looseEqUserId (getField model f) user.id = false →
        user.roles.contains C.ROLE_ADMIN = false →
        checkModelOwner model f user =
          .error (.requestError .FORBIDDEN .ERR_ONLY_OWNER_CAN_EDIT_AND_DELETE
            "app:YouAreNotTheOwner"))
    ∧ checkModelOwner [("owner", .id "u1")] "owner" ⟨"u2", ["user"]⟩ =
        .error (.requestError .FORBIDDEN .ERR_ONLY_OWNER_CAN_EDIT_AND_DELETE
          "app:YouAreNotTheOwner") := by
  refine ⟨?_, ?_, ?_, rfl⟩
  · intro m f u h; simp [checkModelOwner, h]; intro _; simpa using h
  · intro m f u h; simp [checkModelOwner, h]
  · intro m f u h1 h2; simp [checkModelOwner, h1, h2]; simpa using h2

/-- C7 witness: the administrator bypass, the owner match, and the forbidden
mismatch at concrete inputs. -/
theorem C7_witness :
    checkModelOwner [("owner", .id "u1")] "owner" ⟨"u9", ["admin"]⟩ =
      .ok [("owner", .id "u1")]
    ∧ checkModelOwner [("owner", .id "u1")] "owner" ⟨"u1", ["user"]⟩ =
      .ok [("owner", .id "u1")]
    ∧ checkModelOwner [("owner", .id "u1")] "owner" ⟨"u2", ["user"]⟩ =
      .error (.requestError .FORBIDDEN .ERR_ONLY_OWNER_CAN_EDIT_AND_DELETE
        "app:YouAreNotTheOwner") :=
  ⟨C7_checkModelOwner.1 [("owner", .id "u1")] "owner" ⟨"u9", ["admin"]⟩ (by decide),
   C7_checkModelOwner.2.1 [("owner", .id "u1")] "owner" ⟨"u1", ["user"]⟩ (by decide),
   C7_checkModelOwner.2.2.1 [("owner", .id "u1")] "owner" ⟨"u2", ["user"]⟩ (by decide)
     (by decide)⟩

theorem restRoutesForAction_decomp (settings : Settings) (sn ns idp : String)
    (e : String × ActionDescriptor) (routes : List RouteDescriptor) :
    restRoutesForAction ns idp
        (sn ++ "." ++ jsShow (normalizeAction settings e.1 e.2).name)
        (normalizeAction settings e.1 e.2) routes =
      genericBlock settings sn ns idp e ++ routes ++ shortcutBlock settings sn ns idp e := by
  unfold restRoutesForAction genericBlock shortcutBlock addRoute
  by_cases h : truthyS (normalizeAction settings e.1 e.2).defaultMethod = true
  · by_cases h2 : (normalizeAction settings e.1 e.2).needModel = true
    · simp [h, h2]
    · simp [h, h2]
  · simp [h]

theorem processActions_rest (settings : Settings) (sn ns idp : String)
    (hrest : settings.rest = true) (es : List (String × ActionDescriptor)) :
    ∀ st : PubState,
    (processActions settings sn ns idp st es).restRoutes =
      restGenerics settings sn ns idp es ++ st.restRoutes ++
        restShortcuts settings sn ns idp es := by
  induction es with
  | nil => intro st; simp [processActions, restGenerics, restShortcuts]
  | cons e es ih =>
      intro st
      by_cases h : (e.2.publish == some false) = true
      · simp [processActions, processAction, h, ih, restGenerics, restShortcuts]
      · simp [processActions, processAction, h, ih, restGenerics, restShortcuts, hrest,
          restRoutesForAction_decomp, List.append_assoc]

/-- C1 counterexample: in the scenario (action `rename`, `defaultMethod`
"put", `needModel` true, namespace "docs", `hashedIdentity` false) the
shortcut route `PUT /docs/:id` is appended at index 4, after the four
generic routes at indices 0-3 — it does not appear before them. -/
theorem C1_counterexample :
    let rs := ((publishActions { nspace := some "docs", rest := true } "docs" none
        [("rename", { defaultMethod := some "put", needModel := true })] none).1.rest).getD []
    let put : RouteDescriptor :=
      { method := "put", path := "/docs/:id", action := "docs.rename",
        permission := none, role := some C.ROLE_USER }
    let g1 : RouteDescriptor :=
      { method := "get", path := "/docs/rename", action := "docs.rename",
        permission := none, role := some C.ROLE_USER }
    rs.length = 5 ∧ routeIndex rs put = 4 ∧ routeIndex rs g1 = 3 ∧
      routeIndex rs { method := "post", path := "/docs/rename", action := "docs.rename",
                      permission := none, role := some C.ROLE_USER } = 2 ∧
      routeIndex rs { method := "get", path := "/docs/:id/rename", action := "docs.rename",
                      permission := none, role := some C.ROLE_USER } = 1 ∧
      routeIndex rs { method := "post", path := "/docs/:id/rename", action := "docs.rename",
                      permission := none, role := some C.ROLE_USER } = 0 ∧
      ¬ routeIndex rs put < routeIndex rs g1 := by
  decide

/-- C1 amended: for every service with the request/response transport
enabled, the emitted route list decomposes as all generic routes (each
action's four generic routes are unshifted to the front) followed by all
shortcut routes (each appended at the back) — so a `defaultMethod` shortcut
route appears after the four generic routes, not before them. -/
theorem C1_shortcut_routes_appended :
    ∀ (settings : Settings) (serviceName : String) (version : Option String)
      (actions : List (String × ActionDescriptor)) (graphql : Option GraphQLSchema),
      settings.rest = true →
      (publishActions settings serviceName version actions graphql).1.rest =
        some (restGenerics settings serviceName
                ((jsOr settings.nspace (some serviceName)).getD serviceName)
                (if settings.hashedIdentity then "code" else "id") actions ++
              restShortcuts settings serviceName
                ((jsOr settings.nspace (some serviceName)).getD serviceName)
                (if settings.hashedIdentity then "code" else "id") actions) := by
  intro s sn v as g h
  simp [publishActions, h, processActions_rest s sn _ _ h as]

/-- C1 witness: the amended decomposition instantiated at the `rename`
scenario, whose route list is the four generic routes followed by the
`PUT /docs/:id` shortcut. -/
theorem C1_witness :
    (publishActions { nspace := some "docs", rest := true } "docs" none
        [("rename", { defaultMethod := some "put", needModel := true })] none).1.rest =
      some (restGenerics { nspace := some "docs", rest := true } "docs" "docs" "id"
              [("rename", { defaultMethod := some "put", needModel := true })] ++
            restShortcuts { nspace := some "docs", rest := true } "docs" "docs" "id"
              [("rename", { defaultMethod := some "put", needModel := true })]) :=
  C1_shortcut_routes_appended { nspace := some "docs", rest := true } "docs" none
    [("rename", { defaultMethod := some "put", needModel := true })] none rfl

theorem processActions_append (settings : Settings) (sn ns idp : String)
    (l₁ l₂ : List (String × ActionDescriptor)) : ∀ st : PubState,
    processActions settings sn ns idp st (l₁ ++ l₂) =
      processActions settings sn ns idp
        (processActions settings sn ns idp st l₁) l₂ := by
  induction l₁ with
  | nil => intro st; rfl
  | cons e es ih => intro st; simp [processActions, ih]

theorem processActions_routes_ext (settings : Settings) (sn ns idp : String)
    (es : List (String × ActionDescriptor)) : ∀ st₁ st₂ : PubState,
    st₁.restRoutes = st₂.restRoutes → st₁.wsRoutes = st₂.wsRoutes →
    (processActions settings sn ns idp st₁ es).restRoutes =
        (processActions settings sn ns idp st₂ es).restRoutes ∧
      (processActions settings sn ns idp st₁ es).wsRoutes =
        (processActions settings sn ns idp st₂ es).wsRoutes := by
  induction es with
  | nil => intro st₁ st₂ hr hw; exact ⟨hr, hw⟩
  | cons e es ih =>
      intro st₁ st₂ hr hw
      apply ih
      · by_cases h : (e.2.publish == some false) = true <;> simp [processAction, h, hr]
      · by_cases h : (e.2.publish == some false) = true <;> simp [processAction, h, hw]

theorem processActions_skip_middle (settings : Settings) (sn ns idp : String)
    (pre post : List (String × ActionDescriptor)) (an : String) (a : ActionDescriptor)
    (h : a.publish = some false) (st : PubState) :
    (processActions settings sn ns idp st (pre ++ (an, a) :: post)).restRoutes =
        (processActions settings sn ns idp st (pre ++ post)).restRoutes ∧
      (processActions settings sn ns idp st (pre ++ (an, a) :: post)).wsRoutes =
        (processActions settings sn ns idp st (pre ++ post)).wsRoutes := by
  rw [processActions_append, processActions_append]
  show (processActions settings sn ns idp
      (processAction settings sn ns idp _ (an, a)) post).restRoutes = _ ∧ _
  apply processActions_routes_ext
  · simp [processAction, h]
  · simp [processAction, h]

/-- C2 counterexample: an action with `publish: false` yields no REST or ws
route, but the published query-protocol schema is the service's graphql
block passed through unchanged, so the resolver binding naming the
unpublished action still appears in the published output. -/
theorem C2_counterexample :
    let out := (publishActions { rest := true, ws := true, graphql := true } "svc" none
        [("secret", { publish := some false })]
        (some { query := "q", types := "t", mutation := "m",
                resolvers := [("secret", "secret")] })).1
    out.rest = some [] ∧ out.ws = some [] ∧
      out.graphql = some { query := "q", types := "t", mutation := "m",
                           resolvers := [("secret", "secret")] } ∧
      ("secret", "secret") ∈
        (match out.graphql with | some gq => gq.resolvers | none => []) ∧
      ({ publish := some false } : ActionDescriptor).publish = some false := by
  decide

/-- C2 amended: an action with `publish: false` contributes no
request/response route and no channel route — removing the entry from the
action set leaves the published schema unchanged — but the query-protocol
schema is the declared graphql block passed through unchanged regardless of
any action's `publish` flag, so resolver bindings naming the action are not
excluded from it. -/
theorem C2_publish_false_excluded_from_routes :
    (∀ (settings : Settings) (serviceName : String) (version : Option String)
       (pre post : List (String × ActionDescriptor)) (an : String)
       (a : ActionDescriptor) (graphql : Option GraphQLSchema),
        a.publish = some false →
        (publishActions settings serviceName version (pre ++ (an, a) :: post) graphql).1 =
          (publishActions settings serviceName version (pre ++ post) graphql).1)
    ∧ (∀ (settings : Settings) (serviceName : String) (version : Option String)
         (actions : List (String × ActionDescriptor)) (graphql : Option GraphQLSchema),
        (publishActions settings serviceName version actions graphql).1.graphql =
          if settings.graphql then graphql else none) := by
  constructor
  · intro s sn v pre post an a g h
    have hx := processActions_skip_middle s sn
      ((jsOr s.nspace (some sn)).getD sn)
      (if s.hashedIdentity then "code" else "id") pre post an a h
      { restRoutes := [], wsRoutes := [], actions := [] }
    simp only [publishActions]
    rw [hx.1, hx.2]
  · intro s sn v as g
    simp [publishActions]

/-- C2 witness: the route-exclusion part instantiated at a service
containing only the unpublished action, and the graphql pass-through at the
same service. -/
theorem C2_witness :
    (publishActions { rest := true, ws := true, graphql := true } "svc" none
        [("secret", { publish := some false })]
        (some { query := "q", types := "t", mutation := "m",
                resolvers := [("secret", "secret")] })).1 =
      (publishActions { rest := true, ws := true, graphql := true } "svc" none []
        (some { query := "q", types := "t", mutation := "m",
                resolvers := [("secret", "secret")] })).1
    ∧ (publishActions { rest := true, ws := true, graphql := true } "svc" none []
        (some { query := "q", types := "t", mutation := "m",
                resolvers := [("secret", "secret")] })).1.graphql =
      some { query := "q", types := "t", mutation := "m",
             resolvers := [("secret", "secret")] } :=
  ⟨C2_publish_false_excluded_from_routes.1
      { rest := true, ws := true, graphql := true } "svc" none [] [] "secret"
      { publish := some false }
      (some { query := "q", types := "t", mutation := "m",
              resolvers := [("secret", "secret")] }) rfl,
   (C2_publish_false_excluded_from_routes.2
      { rest := true, ws := true, graphql := true } "svc" none []
      (some { query := "q", types := "t", mutation := "m",
              resolvers := [("secret", "secret")] })).trans rfl⟩

theorem shapeResult_not_requestError (settings : Settings) (params : RMParams)
    (docs : DocsStage) (status : ErrStatus) (code : ErrCode) (msg : String) :
    shapeResult settings params docs ≠ .error (.requestError status code msg) := by
  cases docs <;> simp only [shapeResult] <;> split_ifs <;> simp

/-- C3: `resolveModel` fails with the `INVALID_CODE` request error exactly
when the identifier produced by `resolveID` is absent, empty or of zero
length, and it does so for every collection (the failure precedes any store
lookup); in particular resolving only a code on a hashed-identity service
with no decode function fails this way. -/
theorem C3_resolveModel_invalid_identifier :
    (∀ (settings : Settings) (decodeID : Option (FieldVal → FieldVal))
       (collection : Collection)
       (call : String → CallParams → List (String × Entity)) (params : RMParams),
        invalidResolvedId (resolveID settings decodeID params) = true →
        resolveModel settings decodeID collection call params =
          .error (.requestError .BAD_REQUEST .INVALID_CODE "app:InvalidCode"))
    ∧ (∀ (settings : Settings) (decodeID : Option (FieldVal → FieldVal))
         (collection : Collection)
         (call : String → CallParams → List (String × Entity)) (params : RMParams),
        invalidResolvedId (resolveID settings decodeID params) = false →
        resolveModel settings decodeID collection call params ≠
          .error (.requestError .BAD_REQUEST .INVALID_CODE "app:InvalidCode"))
    ∧ (∀ (collection : Collection)
         (call : String → CallParams → List (String × Entity)),
        resolveModel { hashedIdentity := true } none collection call
            { code := .id "XYZ" } =
          .error (.requestError .BAD_REQUEST .INVALID_CODE "app:InvalidCode")) := by
  refine ⟨?_, ?_, ?_⟩
  · intro s dec col call p h
    simp [resolveModel, h]
  · intro s dec col call p h
    simp [resolveModel, h, shapeResult_not_requestError]
  · intro col call
    rfl

/-- C3 witness: an absent identifier fails with `INVALID_CODE`; a present
single identifier does not produce that error. -/
theorem C3_witness :
    resolveModel {} none ⟨fun _ => [], fun _ => none⟩ (fun _ _ => []) {} =
      .error (.requestError .BAD_REQUEST .INVALID_CODE "app:InvalidCode")
    ∧ resolveModel {} none ⟨fun _ => [], fun _ => none⟩ (fun _ _ => [])
        { id := .id "x" } ≠
      .error (.requestError .BAD_REQUEST .INVALID_CODE "app:InvalidCode") :=
  ⟨C3_resolveModel_invalid_identifier.1 {} none ⟨fun _ => [], fun _ => none⟩
      (fun _ _ => []) {} rfl,
   C3_resolveModel_invalid_identifier.2.1 {} none ⟨fun _ => [], fun _ => none⟩
      (fun _ _ => []) { id := .id "x" } rfl⟩

theorem getField_setField (d : Doc) (f : String) (v : FieldVal) :
    getField (setField d f v) f = v := by
  induction d with
  | nil => simp [setField, jsSet, getField, List.find?]
  | cons kv rest ih =>
      by_cases h : (kv.1 == f) = true
      · simp [setField, jsSet, getField, List.find?, h]
      · simpa [setField, jsSet, getField, List.find?, h] using ih

/-- C4: after population of a field, a sequence-valued field is replaced
element-wise by the returned entities in the order of the original
identifier sequence (identifiers absent from the result are dropped), and a
scalar-valued field is replaced by the single match or left absent; in the
scenario, `tags: [t1, t2]` becomes the two entities in that order even when
the sub-invocation result lists them in the opposite order. -/
theorem C4_population_replacement :
    (∀ (m : List (String × Entity)) (field : String) (d : Doc) (xs : List FieldVal),
        getField d field = .ids xs →
        getField (populateField m field d) field =
          .ents (xs.filterMap (fun x => lookupEnt m x)))
    ∧ (∀ (m : List (String × Entity)) (field : String) (d : Doc) (v : FieldVal)
         (e : Entity),
        getField d field = v → isArrFV v = false → lookupEnt m v = some e →
        getField (populateField m field d) field = .ent e)
    ∧ (∀ (m : List (String × Entity)) (field : String) (d : Doc) (v : FieldVal),
        getField d field = v → isArrFV v = false → lookupEnt m v = none →
        getField (populateField m field d) field = .null)
    ∧ (populateModels
        (.one [("id", .id "a"), ("owner", .id "u1"),
               ("tags", .ids [.id "t1", .id "t2"])])
        [("tags", "tags.getByIds")]
        (fun _ _ => [("t2", ⟨[("n", "T2")]⟩), ("t1", ⟨[("n", "T1")]⟩)])).1 =
      .one [("id", .id "a"), ("owner", .id "u1"),
            ("tags", .ents [⟨[("n", "T1")]⟩, ⟨[("n", "T2")]⟩])] := by
  refine ⟨?_, ?_, ?_, rfl⟩
  · intro m field d xs h
    simp [populateField, h, getField_setField, List.filterMap_map, Function.comp_def]
  · intro m field d v e h harr hlook
    cases v <;> simp_all [populateField, isArrFV, getField_setField]
  · intro m field d v h harr hlook
    cases v <;> simp_all [populateField, isArrFV, getField_setField]

/-- C4 witness: the element-wise replacement and both scalar outcomes at
concrete inputs. -/
theorem C4_witness :
    getField (populateField [("t1", ⟨[("n", "T1")]⟩)] "tags"
        [("tags", .ids [.id "t1", .id "x"])]) "tags" = .ents [⟨[("n", "T1")]⟩]
    ∧ getField (populateField [("u1", ⟨[("n", "U1")]⟩)] "owner"
        [("owner", .id "u1")]) "owner" = .ent ⟨[("n", "U1")]⟩
    ∧ getField (populateField [] "owner" [("owner", .id "u9")]) "owner" = .null :=
  ⟨(C4_population_replacement.1 [("t1", ⟨[("n", "T1")]⟩)] "tags"
      [("tags", .ids [.id "t1", .id "x"])] [.id "t1", .id "x"] rfl).trans rfl,
   C4_population_replacement.2.1 [("u1", ⟨[("n", "U1")]⟩)] "owner"
      [("owner", .id "u1")] (.id "u1") ⟨[("n", "U1")]⟩ rfl rfl rfl,
   C4_population_replacement.2.2.1 [] "owner" [("owner", .id "u9")] (.id "u9")
      rfl rfl rfl⟩

theorem length_filterMap_countP {α β : Type} (f : α → Option β) (l : List α) :
    (l.filterMap f).length = l.countP (fun a => (f a).isSome) := by
  induction l with
  | nil => rfl
  | cons a l ih =>
      cases hfa : f a <;>
        simp [List.filterMap_cons, hfa, List.countP_cons, ih]

/-- C5 counterexample: for the entity `{tags: [null]}` the spec's collected
identifier set (flattened, nulls removed, deduplicated) is empty, yet
`populateModels` issues one sub-invocation, with `id: [null]` — `_.compact`
runs before `_.flattenDeep`, so a null nested inside a sequence survives. -/
theorem C5_counterexample :
    (populateModels (.one [("tags", .ids [.null])]) [("tags", "tags.getByIds")]
        (fun _ _ => [])).2 =
      [("tags.getByIds", ⟨[.null], true, true⟩)]
    ∧ specCollectIdList [[("tags", .ids [.null])]] "tags" = []
    ∧ (populateModels (.one [("tags", .ids [.null])]) [("tags", "tags.getByIds")]
        (fun _ _ => [])).2.length = 1 :=
  ⟨rfl, rfl, rfl⟩

/-- C5 amended: `populateModels` issues exactly one sub-invocation per
schema field whose code-collected identifier list — falsy field values
removed first, then deeply flattened, then deduplicated (so nulls nested
inside sequence-valued fields are retained) — is non-empty, each with
parameters `{ id: <that list>, resultAsObject: true, propFilter: true }`;
a field with an empty collected list triggers no sub-invocation, so the
sub-invocation count equals the number of fields with a non-empty collected
list. -/
theorem C5_population_subinvocations :
    ∀ (docs : DocsVal) (sch : List (String × String))
      (call : String → CallParams → List (String × Entity)),
      ((populateModels docs sch call).2.length =
        sch.countP (fun fa => decide (0 < (collectIdList (toItems docs) fa.1).length)))
      ∧ (∀ c ∈ (populateModels docs sch call).2,
          ∃ fa ∈ sch, c.1 = fa.2 ∧
            c.2 = (⟨collectIdList (toItems docs) fa.1, true, true⟩ : CallParams) ∧
            0 < (collectIdList (toItems docs) fa.1).length) := by
  intro docs sch call
  constructor
  · simp only [populateModels, populateItems, List.length_map, length_filterMap_countP]
    congr 1
    funext fa
    by_cases h : 0 < (collectIdList (toItems docs) fa.1).length <;> simp [h]
  · intro c hc
    simp only [populateModels, populateItems, List.mem_map, List.mem_filterMap] at hc
    obtain ⟨x, ⟨fa, hfa, hx⟩, hxc⟩ := hc
    by_cases h : 0 < (collectIdList (toItems docs) fa.1).length
    · refine ⟨fa, hfa, ?_⟩
      simp [h] at hx
      subst hx
      simp at hxc
      subst hxc
      exact ⟨rfl, rfl, h⟩
    · simp [h] at hx

/-- C5 witness: the count and the parameter shape of the issued
sub-invocation at a concrete one-field population. -/
theorem C5_witness :
    ((populateModels (.one [("tags", .ids [.id "t1"])]) [("tags", "tsvc")]
        (fun _ _ => [])).2.length =
      ([("tags", "tsvc")] : List (String × String)).countP
        (fun fa => decide (0 <
          (collectIdList (toItems (.one [("tags", .ids [.id "t1"])])) fa.1).length)))
    ∧ (⟨[.id "t1"], true, true⟩ : CallParams).resultAsObject = true := by
  refine ⟨(C5_population_subinvocations
      (.one [("tags", .ids [.id "t1"])]) [("tags", "tsvc")] (fun _ _ => [])).1, ?_⟩
  have h := (C5_population_subinvocations
      (.one [("tags", .ids [.id "t1"])]) [("tags", "tsvc")] (fun _ _ => [])).2
      ("tsvc", ⟨[.id "t1"], true, true⟩) (by exact List.mem_singleton.mpr rfl)
  obtain ⟨fa, _, _, hparams, _⟩ := h
  exact congrArg CallParams.resultAsObject hparams

theorem lookupAssoc_cons {α : Type} (kv : String × α) (rest : List (String × α))
    (k' : String) :
    lookupAssoc (kv :: rest) k' =
      if kv.1 == k' then some kv.2 else lookupAssoc rest k' := by
  by_cases h : (kv.1 == k') = true <;> simp [lookupAssoc, List.find?, h]

theorem jsSet_keys {α : Type} (m : List (String × α)) (k : String) (v : α) :
    (jsSet m k v).map Prod.fst =
      if k ∈ m.map Prod.fst then m.map Prod.fst else m.map Prod.fst ++ [k] := by
  induction m with
  | nil => simp [jsSet]
  | cons kv rest ih =>
      by_cases h : (kv.1 == k) = true
      · have hk : kv.1 = k := by simpa using h
        simp [jsSet, h, hk]
      · have hne : kv.1 ≠ k := by simpa using h
        by_cases hm : k ∈ rest.map Prod.fst <;>
          simp [jsSet, h, hm, ih, hne, Ne.symm hne]

theorem jsSet_nodup_keys {α : Type} (m : List (String × α)) (k : String) (v : α)
    (h : (m.map Prod.fst).Nodup) : ((jsSet m k v).map Prod.fst).Nodup := by
  rw [jsSet_keys]
  by_cases hm : k ∈ m.map Prod.fst
  · simpa [hm] using h
  · simp only [hm, if_false]
    simp [List.nodup_append, h, hm]

theorem jsSet_lookup {α : Type} (m : List (String × α)) (k k' : String) (v : α) :
    lookupAssoc (jsSet m k v) k' = if k' = k then some v else lookupAssoc m k' := by
  induction m with
  | nil =>
      by_cases h : k' = k
      · subst h; simp [jsSet, lookupAssoc, List.find?]
      · have hb : (k == k') = false := by
          simp [beq_eq_false_iff_ne]
          exact Ne.symm h
        simp [jsSet, lookupAssoc, List.find?, h, hb]
  | cons kv rest ih =>
      by_cases h1 : (kv.1 == k) = true
      · have hk : kv.1 = k := by simpa using h1
        by_cases h2 : k' = k
        · subst h2; simp [jsSet, h1, lookupAssoc_cons, hk]
        · simp [jsSet, h1, lookupAssoc_cons, hk, h2, Ne.symm h2]
      · have hk : kv.1 ≠ k := by simpa using h1
        by_cases h3 : (kv.1 == k') = true
        · have hk3 : kv.1 = k' := by simpa using h3
          have : k' ≠ k := by rw [← hk3]; exact hk
          simp [jsSet, h1, lookupAssoc_cons, h3, this]
        · simp [jsSet, h1, lookupAssoc_cons, h3, ih]

theorem buildDocsObj_fold_nodup (settings : Settings) (params : RMParams)
    (ds : List Doc) : ∀ m : List (String × Doc),
    (m.map Prod.fst).Nodup →
    ((ds.foldl (fun m d => jsSet m (docIdKey d) (filterProperties settings params d))
        m).map Prod.fst).Nodup := by
  induction ds with
  | nil => intro m h; simpa using h
  | cons d ds ih => intro m h; exact ih _ (jsSet_nodup_keys _ _ _ h)

theorem buildDocsObj_fold_lookup (settings : Settings) (params : RMParams)
    (ds : List Doc) : ∀ (m : List (String × Doc)) (k : String),
    lookupAssoc
        (ds.foldl (fun m d => jsSet m (docIdKey d) (filterProperties settings params d)) m)
        k =
      match ds.reverse.find? (fun d => docIdKey d == k) with
      | some d => some (filterProperties settings params d)
      | none => lookupAssoc m k := by
  induction ds with
  | nil => intro m k; simp
  | cons d ds ih =>
      intro m k
      simp only [List.foldl_cons, ih, List.reverse_cons, List.find?_append]
      cases hfind : ds.reverse.find? (fun d => docIdKey d == k) with
      | some d' => simp [Option.or]
      | none =>
          by_cases h : (docIdKey d == k) = true
          · have hk : docIdKey d = k := by simpa using h
            simp [Option.or, List.find?, h, jsSet_lookup, hk]
          · have hk : docIdKey d ≠ k := by simpa using h
            simp [Option.or, List.find?, h, jsSet_lookup, Ne.symm hk]

/-- C6: when the result is a sequence and `resultAsObject` is true, the
output is a mapping keyed by each entity's identifier with exactly one entry
per distinct identifier seen (the key list has no duplicates), and the value
stored under a key comes from the last document with that identifier —
later duplicates overwrite earlier ones. -/
theorem C6_resultAsObject_mapping :
    ∀ (settings : Settings) (params : RMParams) (ds : List Doc),
      params.resultAsObject = true →
      (shapeResult settings params (.arr ds) =
          .ok (.obj (buildDocsObj settings params ds)))
      ∧ ((buildDocsObj settings params ds).map Prod.fst).Nodup
      ∧ ∀ k, lookupAssoc (buildDocsObj settings params ds) k =
          (ds.reverse.find? (fun d => docIdKey d == k)).map
            (filterProperties settings params) := by
  intro s p ds h
  refine ⟨by simp [shapeResult, h], ?_, ?_⟩
  · exact buildDocsObj_fold_nodup s p ds [] (by simp)
  · intro k
    have hx := buildDocsObj_fold_lookup s p ds [] k
    simp only [buildDocsObj]
    rw [hx]
    cases ds.reverse.find? (fun d => docIdKey d == k) <;> simp [lookupAssoc]

/-- C6 witness: two documents sharing identifier "a" collapse to a single
entry holding the later document. -/
theorem C6_witness :
    (shapeResult {} { resultAsObject := true }
        (.arr [[("id", .id "a"), ("v", .id "1")], [("id", .id "a"), ("v", .id "2")]]) =
      .ok (.obj (buildDocsObj {} { resultAsObject := true }
        [[("id", .id "a"), ("v", .id "1")], [("id", .id "a"), ("v", .id "2")]])))
    ∧ ((buildDocsObj {} { resultAsObject := true }
        [[("id", .id "a"), ("v", .id "1")],
         [("id", .id "a"), ("v", .id "2")]]).map Prod.fst).Nodup
    ∧ lookupAssoc (buildDocsObj {} { resultAsObject := true }
        [[("id", .id "a"), ("v", .id "1")], [("id", .id "a"), ("v", .id "2")]]) "a" =
      some [("id", .id "a"), ("v", .id "2")] := by
  have h := C6_resultAsObject_mapping {} { resultAsObject := true }
    [[("id", .id "a"), ("v", .id "1")], [("id", .id "a"), ("v", .id "2")]] rfl
  exact ⟨h.1, h.2.1, (h.2.2 "a").trans rfl⟩

theorem populateStage_single (settings : Settings)
    (call : String → CallParams → List (String × Entity)) (d : Doc) :
    ∃ d', populateStage settings call (.single d) = .single d' := by
  cases h : settings.modelPopulates with
  | none => exact ⟨d, by simp [populateStage, h]⟩
  | some sch => exact ⟨(populateItems [d] sch call).1.headD d, by simp [populateStage, h]⟩

theorem populateStage_undefined (settings : Settings)
    (call : String → CallParams → List (String × Entity)) :
    populateStage settings call .undefined = .undefined := by
  cases h : settings.modelPopulates <;> simp [populateStage, h]

theorem queryStage_not_arr (collection : Collection) (id : FieldVal)
    (h : isArrFV id = false) : ∀ ds, queryStage collection id ≠ .arr ds := by
  intro ds
  unfold queryStage
  rw [h]
  cases collection.findById id <;> simp

theorem populateStage_not_arr (settings : Settings)
    (call : String → CallParams → List (String × Entity)) (D : DocsStage)
    (h : ∀ ds, D ≠ .arr ds) : ∀ ds, populateStage settings call D ≠ .arr ds := by
  intro ds
  cases D with
  | arr ds0 => exact absurd rfl (h ds0)
  | single d =>
      obtain ⟨d', hd⟩ := populateStage_single settings call d
      simp [hd]
  | undefined => simp [populateStage_undefined]

theorem shapeResult_nonarr_resultAsObject (settings : Settings)
    (id code : FieldVal) (pop : Bool) (pf : Option PropFilterParam) (b₁ b₂ : Bool)
    (D : DocsStage) (h : ∀ ds, D ≠ .arr ds) :
    shapeResult settings ⟨id, code, b₁, pop, pf⟩ D =
      shapeResult settings ⟨id, code, b₂, pop, pf⟩ D := by
  cases D with
  | arr ds => exact absurd rfl (h ds)
  | single d => rfl
  | undefined => rfl

theorem shapeResult_nonarr_not_obj (settings : Settings) (params : RMParams)
    (D : DocsStage) (h : ∀ ds, D ≠ .arr ds) (M : List (String × Doc)) :
    shapeResult settings params D ≠ .ok (.obj M) := by
  cases D with
  | arr ds => exact absurd rfl (h ds)
  | single d => simp only [shapeResult]; split_ifs <;> simp
  | undefined => simp only [shapeResult]; split_ifs <;> simp

/-- C10: for a point lookup (the resolved identifier is not a sequence)
`resultAsObject` has no effect — flipping it leaves `resolveModel`'s output
unchanged, the single resolved entity is returned directly, and the output
is never the id-keyed mapping. -/
theorem C10_point_lookup_resultAsObject_noop :
    (∀ (settings : Settings) (decodeID : Option (FieldVal → FieldVal))
       (collection : Collection)
       (call : String → CallParams → List (String × Entity))
       (id code : FieldVal) (pop : Bool) (pf : Option PropFilterParam) (b₁ b₂ : Bool),
        isArrFV (resolveID settings decodeID ⟨id, code, b₁, pop, pf⟩) = false →
        resolveModel settings decodeID collection call ⟨id, code, b₁, pop, pf⟩ =
          resolveModel settings decodeID collection call ⟨id, code, b₂, pop, pf⟩)
    ∧ (∀ (settings : Settings) (decodeID : Option (FieldVal → FieldVal))
         (collection : Collection)
         (call : String → CallParams → List (String × Entity))
         (params : RMParams) (m : MongoDoc),
        isArrFV (resolveID settings decodeID params) = false →
        invalidResolvedId (resolveID settings decodeID params) = false →
        params.propFilter = none → params.populate = false →
        collection.findById (resolveID settings decodeID params) = some m →
        resolveModel settings decodeID collection call params = .ok (.single m.json))
    ∧ (∀ (settings : Settings) (decodeID : Option (FieldVal → FieldVal))
         (collection : Collection)
         (call : String → CallParams → List (String × Entity))
         (params : RMParams) (M : List (String × Doc)),
        isArrFV (resolveID settings decodeID params) = false →
        resolveModel settings decodeID collection call params ≠ .ok (.obj M)) := by
  refine ⟨?_, ?_, ?_⟩
  · intro s dec col call id code pop pf b₁ b₂ harr
    by_cases hinv : invalidResolvedId (resolveID s dec ⟨id, code, b₁, pop, pf⟩) = true
    · unfold resolveModel
      rw [show resolveID s dec ⟨id, code, b₂, pop, pf⟩ =
            resolveID s dec ⟨id, code, b₁, pop, pf⟩ from rfl]
      rw [if_pos hinv, if_pos hinv]
    · unfold resolveModel
      rw [show resolveID s dec ⟨id, code, b₂, pop, pf⟩ =
            resolveID s dec ⟨id, code, b₁, pop, pf⟩ from rfl]
      rw [if_neg hinv, if_neg hinv]
      dsimp only
      have hq := queryStage_not_arr col _ harr
      apply shapeResult_nonarr_resultAsObject
      intro ds
      by_cases hp : pop = true
      · rw [if_pos hp]; exact populateStage_not_arr s call _ hq ds
      · rw [if_neg hp]; exact hq ds
  · intro s dec col call p m harr hinv hpf hpop hfind
    unfold resolveModel
    simp [hinv, queryStage, harr, hfind, hpop, shapeResult, hpf]
  · intro s dec col call p M harr
    unfold resolveModel
    by_cases hinv : invalidResolvedId (resolveID s dec p) = true
    · rw [if_pos hinv]; simp
    · rw [if_neg hinv]
      dsimp only
      have hq := queryStage_not_arr col _ harr
      by_cases hpop : p.populate = true
      · rw [if_pos hpop]
        exact shapeResult_nonarr_not_obj s p _ (populateStage_not_arr s call _ hq) M
      · rw [if_neg hpop]
        exact shapeResult_nonarr_not_obj s p _ hq M

/-- C10 witness: a concrete point lookup where flipping `resultAsObject`
leaves the result unchanged and the entity is returned unwrapped. -/
theorem C10_witness :
    (resolveModel {} none ⟨fun _ => [], fun _ => some ⟨[("id", .id "x")]⟩⟩
        (fun _ _ => []) ⟨.id "x", .null, true, false, none⟩ =
      resolveModel {} none ⟨fun _ => [], fun _ => some ⟨[("id", .id "x")]⟩⟩
        (fun _ _ => []) ⟨.id "x", .null, false, false, none⟩)
    ∧ resolveModel {} none ⟨fun _ => [], fun _ => some ⟨[("id", .id "x")]⟩⟩
        (fun _ _ => []) ⟨.id "x", .null, true, false, none⟩ =
      .ok (.single [("id", .id "x")]) :=
  ⟨C10_point_lookup_resultAsObject_noop.1 {} none
      ⟨fun _ => [], fun _ => some ⟨[("id", .id "x")]⟩⟩ (fun _ _ => [])
      (.id "x") .null false none true false rfl,
   C10_point_lookup_resultAsObject_noop.2.1 {} none
      ⟨fun _ => [], fun _ => some ⟨[("id", .id "x")]⟩⟩ (fun _ _ => [])
      ⟨.id "x", .null, true, false, none⟩ ⟨[("id", .id "x")]⟩ rfl rfl rfl rfl rfl⟩

end IceService
